import Mathlib

/-!
Verification of the reverse-proxy/supervisor in `proxy_server.py`
(comfy-dgx repository).

Python strings are modelled as `List Char`; header multidicts as
`List (String × String)` in arrival order.  Every definition is a direct
transcription of the corresponding lines of `proxy_server.py`.
-/

set_option maxHeartbeats 1000000

namespace ComfyProxy

/-- Python `s.startswith(pat)` on strings modelled as char lists:
`listStartsWith pat s` is true when `pat` is an initial segment of `s`. -/
def listStartsWith : List Char → List Char → Bool
  | [], _ => true
  | _ :: _, [] => false
  | a :: as, b :: bs => a == b && listStartsWith as bs

/-- Python `needle in hay` substring test (`str.__contains__`). -/
def containsSeq (needle : List Char) : List Char → Bool
  | [] => listStartsWith needle []
  | c :: t => listStartsWith needle (c :: t) || containsSeq needle t

/-- `normalize_path` (proxy_server.py lines 24-30), parametrised by the
`NB_PREFIX` configuration value `pfx`:
strip `pfx` when the path starts with it, then ensure a leading slash. -/
def normalize_path (pfx p : List Char) : List Char :=
  let path := if listStartsWith pfx p then p.drop pfx.length else p
  if listStartsWith ['/'] path then path else '/' :: path

/-- Backend port (`COMFY_PORT = 8188`, proxy_server.py line 15). -/
def COMFY_PORT : Nat := 8188

/-- Value of a hexadecimal digit, or `none` (as in `urllib.parse.unquote`). -/
def hexVal (c : Char) : Option Nat :=
  if '0' ≤ c ∧ c ≤ '9' then some (c.toNat - '0'.toNat)
  else if 'a' ≤ c ∧ c ≤ 'f' then some (c.toNat - 'a'.toNat + 10)
  else if 'A' ≤ c ∧ c ≤ 'F' then some (c.toNat - 'A'.toNat + 10)
  else none

/-- Percent-decoding with plus-as-space, as `urllib.parse.unquote_plus`
applies it to each key and value when yarl parses a query string
(`request.rel_url.query`).  Invalid escapes are kept verbatim. -/
def pctDecode : List Char → List Char
  | [] => []
  | '+' :: rest => ' ' :: pctDecode rest
  | '%' :: c1 :: c2 :: rest =>
    match hexVal c1, hexVal c2 with
    | some h1, some h2 => Char.ofNat (16 * h1 + h2) :: pctDecode rest
    | _, _ => '%' :: pctDecode (c1 :: c2 :: rest)
  | c :: rest => c :: pctDecode rest

/-- Python `s.split('&')`. -/
def splitAmp : List Char → List (List Char)
  | [] => [[]]
  | '&' :: t => [] :: splitAmp t
  | c :: t =>
    match splitAmp t with
    | [] => [[c]]
    | seg :: rest => (c :: seg) :: rest

/-- Split one `key=value` segment at the first `=` (key only when absent). -/
def splitKV : List Char → List Char × List Char
  | [] => ([], [])
  | '=' :: rest => ([], rest)
  | c :: rest =>
    let kv := splitKV rest
    (c :: kv.1, kv.2)

/-- The multidict `request.rel_url.query` (proxy_server.py line 61): yarl
parses the raw query string with `urllib.parse.parse_qsl` semantics —
split on `&`, drop empty segments, split each at the first `=`,
percent-decode keys and values, keeping blank values and arrival order. -/
def queryPairs (q : List Char) : List (List Char × List Char) :=
  ((splitAmp q).filter (fun seg => !seg.isEmpty)).map
    (fun seg => (pctDecode (splitKV seg).1, pctDecode (splitKV seg).2))

/-- The code's query reconstruction `'&'.join(f"{k}={v}" for k, v in
params.items())` (proxy_server.py line 63). -/
def buildQuery : List (List Char × List Char) → List Char
  | [] => []
  | [(k, v)] => k ++ '=' :: v
  | (k, v) :: rest => (k ++ '=' :: v) ++ '&' :: buildQuery rest

/-- The full `target_url` built by `proxy_handler` (proxy_server.py lines
57-63): backend base, normalized path, then — only when the parsed query
multidict is nonempty (`if params:`) — a `?` and the rejoined pairs. -/
def target_url (pfx path query : List Char) : List Char :=
  ("http://127.0.0.1:" ++ toString COMFY_PORT).toList ++ normalize_path pfx path ++
    (match queryPairs query with
     | [] => []
     | ps => '?' :: buildQuery ps)

/-!  Header maps.  `request.headers` and `resp.headers` are `CIMultiDict`s:
ordered sequences of name/value pairs in which equal names may repeat and
name comparison is case-insensitive (names below are taken in the
canonical form the multidict stores).  A Python `dict`, and aiohttp's
keyed assignment `headers[key] = value`, hold at most one value per name
and are modelled as association lists with unique keys.  Note the two
collapse directions differ: `dict(multidict)` reads each name through
multidict `__getitem__`, which returns the FIRST value (see `dictOf`),
while a keyed-assignment loop over `.items()` overwrites, so the LAST
value wins (see `copyInto`). -/

/-- `d[k] = v` on a Python dict / CIMultiDict keyed assignment: replace the
value of an existing key in place, else append the new pair. -/
def dictInsert : List (String × String) → String → String → List (String × String)
  | [], k, v => [(k, v)]
  | (k', v') :: t, k, v =>
    if k' = k then (k, v) :: t else (k', v') :: dictInsert t k v

/-- Lookup `d[n]` (first — hence, with unique keys, only — match). -/
def getVal : List (String × String) → String → Option String
  | [], _ => none
  | (k, v) :: t, n => if k = n then some v else getVal t n

/-- Last value a multidict holds for name `n` — the value that survives
a keyed-assignment copy loop over all its `.items()`. -/
def lastVal : List (String × String) → String → Option String
  | [], _ => none
  | (k, v) :: t, n =>
    match lastVal t n with
    | some w => some w
    | none => if k = n then some v else none

/-- Iterate name/value pairs into a keyed map by repeated keyed
assignment, skipping names selected by `skip`: the shape of the
response-header copy loop of proxy_server.py lines 99-101.  Later pairs
overwrite earlier ones of the same name. -/
def copyInto (skip : String → Bool) : List (String × String) → List (String × String) → List (String × String)
  | d, [] => d
  | d, (k, v) :: t => copyInto skip (if skip k then d else dictInsert d k v) t

/-- `dict(request.headers)` (proxy_server.py line 70).  Python's `dict`
constructor on a mapping runs `for key in m.keys(): d[key] = m[key]`;
multidict `keys()` yields each stored name in order (a duplicated name
appears once per occurrence) and multidict `__getitem__` returns the
FIRST value stored for the name (`getVal hs p.1`; the `getD` fallback is
never read, every iterated name being present).  The resulting dict
therefore keeps, for every name, the first inbound value — later
duplicates only re-assign that same first value. -/
def dictOf (hs : List (String × String)) : List (String × String) :=
  hs.foldl (fun d p => dictInsert d p.1 ((getVal hs p.1).getD p.2)) []

/-- `headers.pop(k, None)` (proxy_server.py line 74). -/
def dictPop (d : List (String × String)) (k : String) : List (String × String) :=
  d.filter (fun p => p.1 ≠ k)

/-- The headers `proxy_handler` sends to the backend (proxy_server.py
lines 70-74): `headers = dict(request.headers)`, then
`headers['Host'] = f'127.0.0.1:{COMFY_PORT}'`, then
`headers.pop('Content-Length', None)`. -/
def outbound_headers (hs : List (String × String)) : List (String × String) :=
  dictPop (dictInsert (dictOf hs) "Host" ("127.0.0.1:" ++ toString COMFY_PORT)) "Content-Length"

/-- Python `c.lower()` for ASCII. -/
def lowerChar (c : Char) : Char :=
  if 'A' ≤ c ∧ c ≤ 'Z' then Char.ofNat (c.toNat + 32) else c

/-- Python `s.lower()` for ASCII header names. -/
def lowerStr (s : String) : String :=
  String.mk (s.toList.map lowerChar)

/-- `key.lower() in ('content-length', 'transfer-encoding')`
(proxy_server.py line 100). -/
def respSkip (k : String) : Bool :=
  lowerStr k = "content-length" || lowerStr k = "transfer-encoding"

/-- The response-header copy loop of `proxy_handler` (proxy_server.py
lines 98-101): for each backend response header, unless its lowercased
name is `content-length` or `transfer-encoding`, do the keyed assignment
`response.headers[key] = value`. -/
def copyRespHeaders (hs : List (String × String)) : List (String × String) :=
  copyInto respSkip [] hs

/-!  HTTP forwarding: body policy, backend call outcome, client response. -/

/-- `data = await request.read() if request.method != 'GET' else None`
(proxy_server.py line 77): the body forwarded to the backend. -/
def requestData (method : String) (body : List Char) : Option (List Char) :=
  if method ≠ "GET" then some body else none

/-- Outcome of `session.request(...)` (proxy_server.py lines 80-88): either
a backend response (status, headers, body) or a raised transport
exception carrying its message `str(e)`. -/
inductive BackendResult where
  | ok (status : Nat) (headers : List (String × String)) (body : List Char)
  | exn (msg : List Char)

/-- A `web.Response` as returned to the client: status, headers, body. -/
structure HttpResponse where
  status : Nat
  headers : List (String × String)
  body : List Char

/-- `'application/json' in request.headers.get('Accept', '')`
(proxy_server.py line 109). -/
def wantsJson (accept : List Char) : Bool :=
  containsSeq "application/json".toList accept

/-- Body of `web.json_response({"error": error_msg}, status=500)`
(proxy_server.py line 110), for messages needing no JSON escaping. -/
def jsonErrorBody (msg : List Char) : List Char :=
  "\x7b\"error\": \"Proxy error: ".toList ++ msg ++ "\"\x7d".toList

/-- The response `proxy_handler` gives the client (proxy_server.py lines
79-112), as a function of the client's `Accept` header and the backend
call's outcome.  Success: backend status and body unchanged, headers
copied minus `Content-Length`/`Transfer-Encoding` (lines 93-103).
Failure (`except Exception`): status 500, JSON or plain text according
to the `Accept` header (lines 104-112). -/
def proxy_response (accept : List Char) (r : BackendResult) : HttpResponse :=
  match r with
  | .ok status headers body =>
    { status := status, headers := copyRespHeaders headers, body := body }
  | .exn msg =>
    if wantsJson accept then
      { status := 500
        headers := [("Content-Type", "application/json; charset=utf-8")]
        body := jsonErrorBody msg }
    else
      { status := 500
        headers := [("Content-Type", "text/plain; charset=utf-8")]
        body := "Proxy error: ".toList ++ msg }

/-!  Startup sequencing (`main`, proxy_server.py lines 208-243). -/

/-- `STARTUP_TIMEOUT = 60` (proxy_server.py line 19). -/
def STARTUP_TIMEOUT : Nat := 60

/-- One readiness probe of the backend: a response with some status, or
any exception raised during the attempt. -/
inductive ProbeResult where
  | response (status : Nat)
  | failure

/-- `is_comfyui_ready` (proxy_server.py lines 45-52): true when the probe
returned a status `< 500`; the bare `except:` maps every exception to
`False`. -/
def is_comfyui_ready : ProbeResult → Bool
  | .response s => decide (s < 500)
  | .failure => false

/-- Outcome of the startup wait loop. -/
inductive StartupOutcome where
  | serving (readyAt : Nat)
  | fatal
  deriving DecidableEq

/-- The polling loop of `main` (proxy_server.py lines 216-222), with one
time unit per 1-second sleep and `probe t` the readiness result observed
at elapsed time `t`: `while not await is_comfyui_ready()` probes; inside
the loop, `time.time() - start_time > STARTUP_TIMEOUT` terminates the
backend and exits; otherwise sleep 1 and poll again.  `fuel` bounds the
recursion; any `fuel > STARTUP_TIMEOUT + 1 - t` is exact. -/
def startup_wait (probe : Nat → ProbeResult) : Nat → Nat → StartupOutcome
  | _, 0 => .fatal
  | t, fuel + 1 =>
    if is_comfyui_ready (probe t) then .serving t
    else if STARTUP_TIMEOUT < t then .fatal
    else startup_wait probe (t + 1) fuel

/-- Observable effects of `main` up to the point the proxy either starts
serving or aborts (proxy_server.py lines 208-243): whether
`comfyui_process.terminate()` ran on the startup path, the `sys.exit`
code if any, and whether `site.start()` (the listening socket) was
reached. -/
structure MainState where
  backendTerminated : Bool
  exitCode : Option Nat
  listening : Bool
  deriving DecidableEq

/-- Startup phase of `main`: on a fatal poll outcome the process is
terminated and `sys.exit(1)` runs before any route or socket is set up;
otherwise the app is created and `site.start()` opens the socket. -/
def main_startup (probe : Nat → ProbeResult) : MainState :=
  match startup_wait probe 0 (STARTUP_TIMEOUT + 2) with
  | .fatal => { backendTerminated := true, exitCode := some 1, listening := false }
  | .serving _ => { backendTerminated := false, exitCode := none, listening := true }

/-!  WebSocket relay teardown (`websocket_proxy`, lines 114-193). -/

/-- State of one forwarding task of the relay. -/
inductive TaskStatus where
  | running
  | completed
  | cancelled
  deriving DecidableEq

/-- `task.done()`: true once completed or cancelled. -/
def taskDone : TaskStatus → Bool
  | .running => false
  | _ => true

/-- `task.cancel()` on a live task; done tasks are unaffected. -/
def cancelTask : TaskStatus → TaskStatus
  | .running => .cancelled
  | s => s

/-- State of one relay session at a teardown point: the two forwarding
tasks (`none` before `asyncio.create_task` ran) and whether the
client-side WebSocket has been closed. -/
structure RelayState where
  client_to_server : Option TaskStatus
  server_to_client : Option TaskStatus
  clientClosed : Bool
  deriving DecidableEq

/-- `for task in pending: task.cancel()` after `asyncio.wait(...,
return_when=FIRST_COMPLETED)` (proxy_server.py lines 172-179): every
task that is not done is cancelled. -/
def cancel_pending (st : RelayState) : RelayState :=
  { st with
    client_to_server := st.client_to_server.map (fun t => if taskDone t then t else cancelTask t)
    server_to_client := st.server_to_client.map (fun t => if taskDone t then t else cancelTask t) }

/-- The `finally` block (proxy_server.py lines 183-191): cancel each
existing not-done task, then close the client WebSocket if it is not
already closed. -/
def finally_cleanup (st : RelayState) : RelayState :=
  { client_to_server := st.client_to_server.map (fun t => if taskDone t then t else cancelTask t)
    server_to_client := st.server_to_client.map (fun t => if taskDone t then t else cancelTask t)
    clientClosed := true }

/-- The exit path of `websocket_proxy` from the moment `asyncio.wait`
returns (`viaWait = true`, lines 172-191) or an exception skips to the
`finally` block (`viaWait = false`, lines 181-191). -/
def websocket_proxy_exit (viaWait : Bool) (st : RelayState) : RelayState :=
  finally_cleanup (if viaWait then cancel_pending st else st)

/-- An association list with pairwise distinct keys (what a Python dict,
or a header map built purely by keyed assignment, always is). -/
def NodupKeys (d : List (String × String)) : Prop :=
  (d.map Prod.fst).Nodup

/-- `task is None or task.done()` over an optional task handle. -/
def optionTaskDone : Option TaskStatus → Bool
  | none => true
  | some t => taskDone t

theorem listStartsWith_refl (l : List Char) : listStartsWith l l = true := by
  induction l with
  | nil => rfl
  | cons a as ih => simp [listStartsWith, ih]

theorem normalize_path_nil (p : List Char) (h : listStartsWith ['/'] p = true) :
    normalize_path [] p = p := by
  simp [normalize_path, listStartsWith, h]

/-- C3: `normalize_path` always yields a slash-initial path; a path equal
to the prefix itself normalizes to `/`, and stripping `/abc` from
`/abc/def` yields `/def`. -/
theorem C3_normalize_slash :
    (∀ P p, listStartsWith ['/'] (normalize_path P p) = true) ∧
    (∀ P, normalize_path P P = ['/']) ∧
    normalize_path "/abc".toList "/abc/def".toList = "/def".toList := by
  refine ⟨fun P p => ?_, fun P => ?_, by decide⟩
  · unfold normalize_path
    by_cases h : listStartsWith ['/'] (if listStartsWith P p then p.drop P.length else p) = true
    · simp [h]
    · simp [h, listStartsWith]
  · simp [normalize_path, listStartsWith_refl, List.drop_length, listStartsWith]

/-- C2 counterexample: with an empty prefix, a path with no leading slash
is not returned unchanged — `normalize_path` prepends `/`. -/
theorem C2_not_identity :
    normalize_path [] "abc".toList ≠ "abc".toList := by decide

/-- C2 (amended): with an empty prefix, `normalize_path` is the identity
on every path that starts with `/` (it prepends `/` otherwise). -/
theorem C2_empty_prefix_identity (p : List Char)
    (h : listStartsWith ['/'] p = true) :
    normalize_path [] p = p :=
  normalize_path_nil p h

theorem C2_empty_prefix_identity_witness :
    listStartsWith ['/'] "/foo".toList = true ∧
    normalize_path [] "/foo".toList = "/foo".toList :=
  ⟨by decide, C2_empty_prefix_identity "/foo".toList (by decide)⟩

/-- C4 counterexample: pre-normalizing through the empty prefix changes
the result for a path with no leading slash, because the inner pass
prepends `/` and thereby makes the prefix strippable. -/
theorem C4_not_idempotent :
    normalize_path "/abc".toList (normalize_path [] "abc".toList) ≠
      normalize_path "/abc".toList "abc".toList := by decide

/-- C4 (amended): for every prefix and every path that starts with `/`,
normalizing through the empty prefix first changes nothing. -/
theorem C4_idempotent_on_slash_paths (P p : List Char)
    (h : listStartsWith ['/'] p = true) :
    normalize_path P (normalize_path [] p) = normalize_path P p := by
  rw [normalize_path_nil p h]

theorem C4_idempotent_on_slash_paths_witness :
    listStartsWith ['/'] "/abc".toList = true ∧
    normalize_path "/x".toList (normalize_path [] "/abc".toList) =
      normalize_path "/x".toList "/abc".toList :=
  ⟨by decide, C4_idempotent_on_slash_paths "/x".toList "/abc".toList (by decide)⟩

/-- C1: the target URL built by `proxy_handler` does not preserve the
query string byte-for-byte — for the inbound query `x=a%26b` the rejoin
of the decoded multidict emits `x=a&b`, a different byte sequence (one
that even parses as two parameters). -/
theorem C1_query_not_preserved :
    target_url [] "/foo".toList "x=a%26b".toList =
      "http://127.0.0.1:8188/foo?x=a&b".toList ∧
    "x=a&b".toList ≠ "x=a%26b".toList := by decide

theorem getVal_dictInsert (d : List (String × String)) (k v n : String) :
    getVal (dictInsert d k v) n = if k = n then some v else getVal d n := by
  induction d with
  | nil => simp [dictInsert, getVal]
  | cons p t ih =>
    obtain ⟨k', v'⟩ := p
    simp only [dictInsert]
    by_cases h : k' = k
    · rw [if_pos h]
      simp only [getVal]
      by_cases h3 : k = n
      · rw [if_pos h3, if_pos h3]
      · rw [if_neg h3, if_neg h3, if_neg (fun hh : k' = n => h3 (h.symm.trans hh))]
    · rw [if_neg h]
      simp only [getVal]
      by_cases h2 : k' = n
      · rw [if_pos h2, if_neg (fun h3 : k = n => h (h2.trans h3.symm)), if_pos h2]
      · rw [if_neg h2, if_neg h2, ih]

theorem getVal_copyInto (skip : String → Bool) (hs d : List (String × String))
    (n : String) (hn : skip n = false) :
    getVal (copyInto skip d hs) n =
      match lastVal hs n with
      | some w => some w
      | none => getVal d n := by
  induction hs generalizing d with
  | nil => simp [copyInto, lastVal]
  | cons p t ih =>
    obtain ⟨k, v⟩ := p
    simp only [copyInto]
    rw [ih]
    cases hlv : lastVal t n with
    | some w => simp [lastVal, hlv]
    | none =>
      simp only [lastVal, hlv]
      by_cases hk : k = n
      · subst hk
        simp [hn, getVal_dictInsert]
      · by_cases hsk : skip k = true <;> simp [hsk, getVal_dictInsert, hk]

theorem getVal_dictPop (d : List (String × String)) (k n : String) :
    getVal (dictPop d k) n = if n = k then none else getVal d n := by
  induction d with
  | nil => simp [dictPop, getVal]
  | cons p t ih =>
    obtain ⟨k', v'⟩ := p
    by_cases h : k' = k
    · have hd : dictPop ((k', v') :: t) k = dictPop t k := by
        simp [dictPop, List.filter_cons, h]
      rw [hd, ih]
      by_cases h2 : n = k
      · rw [if_pos h2, if_pos h2]
      · rw [if_neg h2, if_neg h2]
        simp only [getVal]
        rw [if_neg (fun hh : k' = n => h2 (hh.symm.trans h))]
    · have hd : dictPop ((k', v') :: t) k = (k', v') :: dictPop t k := by
        simp [dictPop, List.filter_cons, h]
      rw [hd]
      simp only [getVal]
      by_cases h2 : k' = n
      · rw [if_pos h2, if_neg (fun hh : n = k => h (h2.trans hh)), if_pos h2]
      · rw [if_neg h2, ih, if_neg h2]

theorem getVal_of_mem (hs : List (String × String)) (p : String × String)
    (h : p ∈ hs) : ∃ w, getVal hs p.1 = some w := by
  induction hs with
  | nil => cases h
  | cons q t ih =>
    obtain ⟨k, v⟩ := q
    simp only [getVal]
    by_cases hk : k = p.1
    · exact ⟨v, by rw [if_pos hk]⟩
    · rcases List.mem_cons.mp h with hp | hp
      · exact absurd (congrArg Prod.fst hp).symm hk
      · rw [if_neg hk]
        exact ih hp

theorem getVal_none_of_not_mem_keys (hs : List (String × String)) (n : String)
    (h : n ∉ hs.map Prod.fst) : getVal hs n = none := by
  induction hs with
  | nil => rfl
  | cons q t ih =>
    obtain ⟨k, v⟩ := q
    simp only [List.map_cons, List.mem_cons] at h
    push_neg at h
    simp only [getVal]
    rw [if_neg (fun hk : k = n => h.1 hk.symm), ih h.2]

theorem getVal_foldl_dict (hs : List (String × String)) (n : String) :
    ∀ l d : List (String × String), (∀ p ∈ l, p ∈ hs) →
      getVal (l.foldl (fun d p => dictInsert d p.1 ((getVal hs p.1).getD p.2)) d) n =
        if n ∈ l.map Prod.fst then getVal hs n else getVal d n := by
  intro l
  induction l with
  | nil =>
    intro d _
    simp
  | cons p l ih =>
    intro d hsub
    rw [List.foldl_cons, ih _ (fun q hq => hsub q (List.mem_cons.mpr (Or.inr hq)))]
    simp only [List.map_cons, List.mem_cons]
    by_cases hl : n ∈ l.map Prod.fst
    · rw [if_pos hl, if_pos (Or.inr hl)]
    · rw [if_neg hl, getVal_dictInsert]
      by_cases hp : p.1 = n
      · rw [if_pos hp, if_pos (Or.inl hp.symm)]
        obtain ⟨w, hw⟩ := getVal_of_mem hs p (hsub p (List.mem_cons.mpr (Or.inl rfl)))
        rw [hp] at hw
        rw [hp, hw]
        simp
      · rw [if_neg hp]
        have hno : ¬(n = p.1 ∨ n ∈ List.map Prod.fst l) := by
          rintro (h1 | h1)
          · exact hp h1.symm
          · exact hl h1
        rw [if_neg hno]

theorem getVal_dictOf (hs : List (String × String)) (n : String) :
    getVal (dictOf hs) n = getVal hs n := by
  unfold dictOf
  rw [getVal_foldl_dict hs n hs [] (fun p hp => hp)]
  by_cases h : n ∈ hs.map Prod.fst
  · rw [if_pos h]
  · rw [if_neg h, getVal_none_of_not_mem_keys hs n h]
    rfl

theorem keys_dictInsert_sub (d : List (String × String)) (k v m : String)
    (h : m ∈ (dictInsert d k v).map Prod.fst) : m = k ∨ m ∈ d.map Prod.fst := by
  induction d with
  | nil =>
    simp [dictInsert] at h
    exact Or.inl h
  | cons p t ih =>
    obtain ⟨k', v'⟩ := p
    simp only [dictInsert] at h
    by_cases hk : k' = k
    · rw [if_pos hk] at h
      simp only [List.map_cons, List.mem_cons] at h ⊢
      rcases h with h | h
      · exact Or.inl h
      · exact Or.inr (Or.inr h)
    · rw [if_neg hk] at h
      simp only [List.map_cons, List.mem_cons] at h ⊢
      rcases h with h | h
      · exact Or.inr (Or.inl h)
      · rcases ih h with h1 | h1
        · exact Or.inl h1
        · exact Or.inr (Or.inr h1)

theorem nodupKeys_dictInsert (d : List (String × String)) (k v : String)
    (h : NodupKeys d) : NodupKeys (dictInsert d k v) := by
  induction d with
  | nil => simp [dictInsert, NodupKeys]
  | cons p t ih =>
    obtain ⟨k', v'⟩ := p
    unfold NodupKeys at h
    rw [List.map_cons, List.nodup_cons] at h
    simp only [dictInsert]
    by_cases hk : k' = k
    · rw [if_pos hk]
      unfold NodupKeys
      rw [List.map_cons, List.nodup_cons]
      exact ⟨hk ▸ h.1, h.2⟩
    · rw [if_neg hk]
      unfold NodupKeys
      rw [List.map_cons, List.nodup_cons]
      refine ⟨fun hm => ?_, ih h.2⟩
      rcases keys_dictInsert_sub t k v k' hm with h1 | h1
      · exact hk h1
      · exact h.1 h1

theorem nodupKeys_copyInto (skip : String → Bool) (hs d : List (String × String))
    (h : NodupKeys d) : NodupKeys (copyInto skip d hs) := by
  induction hs generalizing d with
  | nil => exact h
  | cons p t ih =>
    obtain ⟨k, v⟩ := p
    simp only [copyInto]
    by_cases hsk : skip k = true
    · rw [if_pos hsk]
      exact ih _ h
    · rw [if_neg hsk]
      exact ih _ (nodupKeys_dictInsert d k v h)

theorem mem_iff_getVal (d : List (String × String)) (n v : String)
    (h : NodupKeys d) : (n, v) ∈ d ↔ getVal d n = some v := by
  induction d with
  | nil => simp [getVal]
  | cons p t ih =>
    obtain ⟨k, w⟩ := p
    unfold NodupKeys at h
    rw [List.map_cons, List.nodup_cons] at h
    simp only [getVal]
    by_cases hk : k = n
    · rw [if_pos hk]
      constructor
      · intro hm
        rcases List.mem_cons.mp hm with hp | hmem
        · rw [Prod.mk.injEq] at hp
          rw [hp.2]
        · exact absurd (hk ▸ List.mem_map_of_mem Prod.fst hmem) (by simpa using h.1)
      · intro he
        rw [Option.some.injEq] at he
        exact List.mem_cons.mpr (Or.inl (by rw [he, hk]))
      -- note: with hk : k = n, (n, v) = (k, w) needs n = k and v = w
    · rw [if_neg hk, ← ih h.2]
      constructor
      · intro hm
        rcases List.mem_cons.mp hm with hp | hmem
        · rw [Prod.mk.injEq] at hp
          exact absurd hp.1.symm hk
        · exact hmem
      · exact fun hmem => List.mem_cons.mpr (Or.inr hmem)

/-- C5 counterexample: when the client repeats a header name, the `dict`
rebuild of `proxy_handler` keeps only the first value, so a later
inbound header (name not `Content-Length`, not `Host`) is absent from
the map sent to the backend. -/
theorem C5_duplicate_inbound_header_lost :
    ("X-Forwarded-For", "2.2.2.2") ∈
      ([("X-Forwarded-For", "1.1.1.1"), ("X-Forwarded-For", "2.2.2.2")] :
        List (String × String)) ∧
    "X-Forwarded-For" ≠ "Content-Length" ∧
    ("X-Forwarded-For", "2.2.2.2") ∉
      outbound_headers [("X-Forwarded-For", "1.1.1.1"), ("X-Forwarded-For", "2.2.2.2")] := by
  decide

/-- C5 (amended): the header map sent to the backend maps every inbound
header name except `Content-Length` and `Host` to the first value the
client sent for it (repeats of a name collapse to the first), maps
`Host` to the backend address `127.0.0.1:8188`, and has no
`Content-Length` entry. -/
theorem C5_outbound_header_map (hs : List (String × String)) (n : String)
    (hn : n ≠ "Host") (hc : n ≠ "Content-Length") :
    getVal (outbound_headers hs) "Host" = some ("127.0.0.1:" ++ toString COMFY_PORT) ∧
    getVal (outbound_headers hs) "Content-Length" = none ∧
    getVal (outbound_headers hs) n = getVal hs n := by
  unfold outbound_headers
  refine ⟨?_, ?_, ?_⟩
  · rw [getVal_dictPop, if_neg (by decide), getVal_dictInsert, if_pos rfl]
  · rw [getVal_dictPop, if_pos rfl]
  · rw [getVal_dictPop, if_neg hc, getVal_dictInsert,
      if_neg (fun h => hn h.symm), getVal_dictOf]

theorem C5_outbound_header_map_witness :
    ("Accept" ≠ "Host" ∧ "Accept" ≠ "Content-Length") ∧
    (getVal (outbound_headers
        [("Host", "client.example"), ("Content-Length", "5"), ("Accept", "text/html")])
        "Host" = some ("127.0.0.1:" ++ toString COMFY_PORT) ∧
     getVal (outbound_headers
        [("Host", "client.example"), ("Content-Length", "5"), ("Accept", "text/html")])
        "Content-Length" = none ∧
     getVal (outbound_headers
        [("Host", "client.example"), ("Content-Length", "5"), ("Accept", "text/html")])
        "Accept" =
      getVal [("Host", "client.example"), ("Content-Length", "5"), ("Accept", "text/html")]
        "Accept") :=
  ⟨⟨by decide, by decide⟩,
    C5_outbound_header_map _ "Accept" (by decide) (by decide)⟩

/-- C10: copying backend response headers by keyed assignment collapses
repeated names — for every name whose lowercase form is not
`content-length`/`transfer-encoding`, the relayed headers hold exactly
the last backend value for that name, and a pair is relayed iff its
value is that last value. -/
theorem C10_resp_header_collapse (hs : List (String × String)) (n v : String)
    (h : respSkip n = false) :
    getVal (copyRespHeaders hs) n = lastVal hs n ∧
    ((n, v) ∈ copyRespHeaders hs ↔ lastVal hs n = some v) := by
  have hnd : NodupKeys (copyRespHeaders hs) :=
    nodupKeys_copyInto respSkip hs [] (by simp [NodupKeys])
  have hg : getVal (copyRespHeaders hs) n = lastVal hs n := by
    rw [copyRespHeaders, getVal_copyInto _ _ _ _ h]
    cases lastVal hs n <;> simp [getVal]
  exact ⟨hg, by rw [mem_iff_getVal _ _ _ hnd, hg]⟩

theorem C10_resp_header_collapse_witness :
    respSkip "Set-Cookie" = false ∧
    (getVal (copyRespHeaders [("Set-Cookie", "a=1"), ("Set-Cookie", "b=2")]) "Set-Cookie" =
        lastVal [("Set-Cookie", "a=1"), ("Set-Cookie", "b=2")] "Set-Cookie" ∧
      (("Set-Cookie", "b=2") ∈ copyRespHeaders [("Set-Cookie", "a=1"), ("Set-Cookie", "b=2")] ↔
        lastVal [("Set-Cookie", "a=1"), ("Set-Cookie", "b=2")] "Set-Cookie" = some "b=2")) :=
  ⟨by decide, C10_resp_header_collapse _ "Set-Cookie" "b=2" (by decide)⟩

/-- C6: whenever the backend call raises, `proxy_handler` answers the
client itself with status 500 — a JSON error body when the client's
`Accept` header contains `application/json`, a plain-text body
otherwise; `proxy_response` is total, so no exception escapes. -/
theorem C6_transport_error_to_500 (accept msg : List Char) :
    (proxy_response accept (.exn msg)).status = 500 ∧
    (proxy_response accept (.exn msg)).body =
      (if wantsJson accept then jsonErrorBody msg else "Proxy error: ".toList ++ msg) ∧
    getVal (proxy_response accept (.exn msg)).headers "Content-Type" =
      some (if wantsJson accept then "application/json; charset=utf-8"
            else "text/plain; charset=utf-8") := by
  by_cases h : wantsJson accept = true <;>
    simp [proxy_response, h, getVal]

/-- C9: `proxy_handler` forwards no body for a GET (even when the client
sent one) and forwards the body unchanged for every other method. -/
theorem C9_get_body_dropped (method : String) (body : List Char) :
    (method = "GET" → requestData method body = none) ∧
    (method ≠ "GET" → requestData method body = some body) := by
  constructor
  · intro h
    simp [requestData, h]
  · intro h
    simp [requestData, h]

theorem C9_get_body_dropped_witness :
    requestData "GET" ['x'] = none ∧ requestData "POST" ['x'] = some ['x'] :=
  ⟨(C9_get_body_dropped "GET" ['x']).1 rfl,
    (C9_get_body_dropped "POST" ['x']).2 (by decide)⟩

theorem startup_wait_fatal (probe : Nat → ProbeResult) (fuel t : Nat)
    (ht : t ≤ STARTUP_TIMEOUT + 1)
    (h : ∀ u, u ≤ STARTUP_TIMEOUT + 1 → is_comfyui_ready (probe u) = false) :
    startup_wait probe t fuel = .fatal := by
  induction fuel generalizing t with
  | zero => rfl
  | succ fuel ih =>
    rw [startup_wait, h t ht]
    simp only [Bool.false_eq_true, if_false]
    by_cases h2 : STARTUP_TIMEOUT < t
    · rw [if_pos h2]
    · rw [if_neg h2]
      exact ih (t + 1) (by unfold STARTUP_TIMEOUT at *; omega)

/-- C7: if no readiness probe within the startup window reports a status
below 500, `main` terminates the backend process and exits with code 1
without ever opening the listening socket; and the readiness probe maps
any exception to not-ready. -/
theorem C7_startup_timeout_fatal (probe : Nat → ProbeResult)
    (h : ∀ u, u ≤ STARTUP_TIMEOUT + 1 → is_comfyui_ready (probe u) = false) :
    main_startup probe =
      { backendTerminated := true, exitCode := some 1, listening := false } ∧
    is_comfyui_ready .failure = false := by
  constructor
  · rw [main_startup, startup_wait_fatal probe _ 0 (by omega) h]
  · rfl

theorem C7_startup_timeout_fatal_witness :
    main_startup (fun _ => ProbeResult.failure) =
      { backendTerminated := true, exitCode := some 1, listening := false } ∧
    is_comfyui_ready .failure = false :=
  C7_startup_timeout_fatal (fun _ => ProbeResult.failure) (fun _ _ => rfl)

/-- C8: once either forwarding loop has completed, the exit path of
`websocket_proxy` (cancel-pending after `asyncio.wait`, then the
`finally` block) leaves both tasks done — the unfinished one cancelled —
and the client WebSocket closed, on the normal path and on the
exception path alike. -/
theorem C8_relay_teardown (st : RelayState) (viaWait : Bool)
    (_h : st.client_to_server = some TaskStatus.completed ∨
         st.server_to_client = some TaskStatus.completed) :
    optionTaskDone (websocket_proxy_exit viaWait st).client_to_server = true ∧
    optionTaskDone (websocket_proxy_exit viaWait st).server_to_client = true ∧
    (websocket_proxy_exit viaWait st).clientClosed = true := by
  obtain ⟨c, s, cl⟩ := st
  cases viaWait <;>
    [skip; skip] <;>
    cases c with
    | none =>
      cases s with
      | none => simp [websocket_proxy_exit, cancel_pending, finally_cleanup, optionTaskDone]
      | some ts =>
        cases ts <;>
          simp [websocket_proxy_exit, cancel_pending, finally_cleanup, optionTaskDone,
            taskDone, cancelTask]
    | some tc =>
      cases s with
      | none =>
        cases tc <;>
          simp [websocket_proxy_exit, cancel_pending, finally_cleanup, optionTaskDone,
            taskDone, cancelTask]
      | some ts =>
        cases tc <;> cases ts <;>
          simp [websocket_proxy_exit, cancel_pending, finally_cleanup, optionTaskDone,
            taskDone, cancelTask]

theorem C8_relay_teardown_witness :
    optionTaskDone (websocket_proxy_exit true
      ⟨some TaskStatus.completed, some TaskStatus.running, false⟩).client_to_server = true ∧
    optionTaskDone (websocket_proxy_exit true
      ⟨some TaskStatus.completed, some TaskStatus.running, false⟩).server_to_client = true ∧
    (websocket_proxy_exit true
      ⟨some TaskStatus.completed, some TaskStatus.running, false⟩).clientClosed = true :=
  C8_relay_teardown ⟨some TaskStatus.completed, some TaskStatus.running, false⟩ true
    (Or.inl rfl)

end ComfyProxy
